import Mathlib

/-!
Formal model of the "28" card-game rule engine.

Sources embedded here:
* `src/src/gameLogic.js` — pure rule functions (deck, card values, trick
  winner, play legality, bid validity, ask-for-trump).
* `src/unnamed/part_000` — a second, near-identical copy of the rule module
  that additionally contains `canPlayerBid` and a stricter trump-lead rule
  inside `canPlayCard`.  The two `canPlayCard` variants are embedded
  separately as `GameLogic.canPlayCard` and `Part000.canPlayCard`.
* `src/src/components/Game.js` — the stateful engine (`playCard`,
  `askForTrump`).  `Game.js` imports `canPlayerBid` from its `gameLogic`
  module; of the two rule modules present only `part_000` defines
  `canPlayerBid` (and carries the matching `Rule 1` / `Rule 2` comments),
  so the engine model uses `Part000.canPlayCard`.

Modelling conventions:
* JS numbers that hold card values / bids / timestamps become `Int`
  (all arithmetic involved is small-integer, no overflow in JS doubles).
* A card's `id` is the string `suit-rank`, which is injective in
  `(suit, rank)`; `card.id === other.id` is therefore modelled as equality
  of the `Card` structure.
* JS `null`/`undefined` object fields become `Option`; JS truthiness of a
  number `n` is `n ≠ 0`.
* JS objects used as keyed maps (`players`, `hands`) become total functions
  from the player-id string; the bids log (`Object.entries(bids)`) becomes
  an ordered association list, matching object insertion order.
* The firebase `update` call applies field assignments left to right, so
  later assignments to the same field win; the model threads the
  intermediate states in the same order.
* `sortCards` is imported by `Game.js` but absent from the sources, so the
  engine transition is parameterised by an arbitrary `sortCards` function.
-/

inductive Suit where
  | hearts | diamonds | clubs | spades
deriving DecidableEq

inductive Rank where
  | r7 | r8 | r9 | r10 | J | Q | K | A
deriving DecidableEq

/-- `SUITS` from gameLogic.js line 2. -/
def SUITS : List Suit := [.hearts, .diamonds, .clubs, .spades]

/-- `RANKS` from gameLogic.js line 3. -/
def RANKS : List Rank := [.r7, .r8, .r9, .r10, .J, .Q, .K, .A]

/-- A card; its JS `id` field is `suit-rank` and is determined by the other
two fields, so it is not stored. -/
structure Card where
  suit : Suit
  rank : Rank
deriving DecidableEq

/-- `CARD_VALUES` lookup table (gameLogic.js lines 6–15). -/
def CARD_VALUES : Rank → Int
  | .J => 3
  | .r9 => 2
  | .A => 1
  | .r10 => 1
  | .K => 0
  | .Q => 0
  | .r8 => 0
  | .r7 => 0

/-- `CARD_POINTS` lookup table (gameLogic.js lines 18–27); identical to
`CARD_VALUES`. -/
def CARD_POINTS : Rank → Int
  | .J => 3
  | .r9 => 2
  | .A => 1
  | .r10 => 1
  | .K => 0
  | .Q => 0
  | .r8 => 0
  | .r7 => 0

/-- `createDeck` (gameLogic.js lines 29–37): all suit × rank combinations in
nested-loop order. -/
def createDeck : List Card :=
  SUITS.flatMap fun suit => RANKS.map fun rank => { suit := suit, rank := rank }

/-- `getCardPoints` (gameLogic.js lines 57–59). -/
def getCardPoints (card : Card) : Int := CARD_POINTS card.rank

/-- One entry of a trick as produced by `Game.js` (`{ playerId, card,
position }`). -/
structure Play where
  playerId : String
  card : Card
  position : Nat
deriving DecidableEq

/-- A raw trick entry as `getTrickWinner` tolerates it: the play itself may
be absent (`!play`) and the play may lack a card (`!play.card`). -/
structure RawPlay where
  card : Option Card
deriving DecidableEq

/-- Well-formed plays viewed as raw trick entries. -/
def Play.toRaw (p : Play) : Option RawPlay := some { card := some p.card }

/-- The per-play ranked value computed inside `getTrickWinner`
(gameLogic.js lines 71–84): trump suit 1000 + value, lead suit 100 + value,
other suits 0.  `trumpSuit = some c.suit` matches the JS guard
`trumpSuit && card.suit === trumpSuit`. -/
def rankedValue (leadSuit : Suit) (trumpSuit : Option Suit) (c : Card) : Int :=
  if trumpSuit = some c.suit then 1000 + CARD_VALUES c.rank
  else if c.suit = leadSuit then 100 + CARD_VALUES c.rank
  else 0

/-- The `trick.forEach` loop of `getTrickWinner` (gameLogic.js lines
67–90): running maximum with strict improvement, skipping absent plays and
plays without a card. -/
def getTrickWinnerAux (leadSuit : Suit) (trumpSuit : Option Suit) :
    List (Option RawPlay) → Nat → Nat → Int → Nat
  | [], _, wIdx, _ => wIdx
  | none :: rest, idx, wIdx, hv =>
      getTrickWinnerAux leadSuit trumpSuit rest (idx + 1) wIdx hv
  | some p :: rest, idx, wIdx, hv =>
      match p.card with
      | none => getTrickWinnerAux leadSuit trumpSuit rest (idx + 1) wIdx hv
      | some c =>
          let v := rankedValue leadSuit trumpSuit c
          if hv < v then getTrickWinnerAux leadSuit trumpSuit rest (idx + 1) idx v
          else getTrickWinnerAux leadSuit trumpSuit rest (idx + 1) wIdx hv

/-- `trumpCard ? trumpCard.suit : null` (gameLogic.js line 65). -/
def trumpSuitOf : Option Card → Option Suit
  | some tc => some tc.suit
  | none => none

/-- `getTrickWinner` (gameLogic.js lines 61–93, identical in part_000). -/
def getTrickWinner (trick : List (Option RawPlay)) (leadSuit : Suit)
    (trumpCard : Option Card) : Nat :=
  getTrickWinnerAux leadSuit (trumpSuitOf trumpCard) trick 0 0 (-1)

namespace GameLogic

/-- `canPlayCard` from `src/src/gameLogic.js` lines 95–129.  With a trick of
well-formed plays, the JS guard `trick.length === 0 || !trick[0]` is the
empty-list case.  In the follow branch the source's inner
`if (isBidWinner && ...) return false` returns `false` on both arms, so the
whole `hasSuit && card.suit !== leadSuit` test simply yields `false`. -/
def canPlayCard (card : Card) (hand : List Card) (trick : List Play)
    (trumpCard : Option Card) (trumpRevealed isBidWinner : Bool) : Bool :=
  match trick with
  | [] =>
      match trumpCard with
      | some tc =>
          if isBidWinner && !trumpRevealed && decide (card = tc) then
            decide ((hand.filter fun c => decide (c.suit = tc.suit)).length = 1)
          else true
      | none => true
  | p :: _ =>
      let leadSuit := p.card.suit
      let hasSuit := hand.any fun c => decide (c.suit = leadSuit)
      if hasSuit && decide (card.suit ≠ leadSuit) then false
      else
        match trumpCard with
        | some tc =>
            if isBidWinner && !trumpRevealed && decide (card = tc) then !hasSuit
            else true
        | none => true

end GameLogic

namespace Part000

/-- `canPlayCard` from `src/unnamed/part_000` lines 95–137.  The lead branch
first applies `Rule 1` (bid winner may not lead any trump-suit card while
trump is hidden if holding a non-trump card), then the designated-trump-card
check, then permits the lead. -/
def canPlayCard (card : Card) (hand : List Card) (trick : List Play)
    (trumpCard : Option Card) (trumpRevealed isBidWinner : Bool) : Bool :=
  match trick with
  | [] =>
      let rule1Blocks : Bool :=
        match trumpCard with
        | some tc =>
            if isBidWinner && decide (card.suit = tc.suit) then
              let hasNonTrumpCards := hand.any fun c => decide (c.suit ≠ tc.suit)
              !trumpRevealed && hasNonTrumpCards
            else false
        | none => false
      if rule1Blocks then false
      else
        match trumpCard with
        | some tc =>
            if isBidWinner && !trumpRevealed && decide (card = tc) then
              decide ((hand.filter fun c => decide (c.suit = tc.suit)).length = 1)
            else true
        | none => true
  | p :: _ =>
      let leadSuit := p.card.suit
      let hasSuit := hand.any fun c => decide (c.suit = leadSuit)
      if hasSuit && decide (card.suit ≠ leadSuit) then false
      else
        match trumpCard with
        | some tc =>
            if isBidWinner && !trumpRevealed && decide (card = tc) then !hasSuit
            else true
        | none => true

end Part000

/-- `calculateBidValidity` (gameLogic.js lines 131–135).  The JS truthiness
test `currentHighestBid && ...` treats both `null` and `0` as absent. -/
def calculateBidValidity (bid : Int) (currentHighestBid : Option Int) : Bool :=
  if bid < 14 ∨ 28 < bid then false
  else
    match currentHighestBid with
    | some h => if h ≠ 0 ∧ bid ≤ h then false else true
    | none => true

/-- `getTotalPoints` (gameLogic.js lines 137–147) over archived tricks of
well-formed plays (the JS `play && play.card` guard always holds there). -/
def getTotalPoints (tricks : List (List Play)) : Int :=
  (tricks.map fun trick => (trick.map fun play => getCardPoints play.card).sum).sum

/-- `canAskForTrump` (gameLogic.js lines 149–161). -/
def canAskForTrump (hand : List Card) (trick : List Play)
    (trumpCard : Option Card) (trumpRevealed : Bool) : Bool :=
  if trumpRevealed || trumpCard.isNone then false
  else
    match trick with
    | [] => false
    | p :: _ => !(hand.any fun c => decide (c.suit = p.card.suit))

/-- `playerHasTrumpSuit` (gameLogic.js lines 163–166). -/
def playerHasTrumpSuit (hand : List Card) (trumpCard : Option Card) : Bool :=
  match trumpCard with
  | none => false
  | some tc => hand.any fun c => decide (c.suit = tc.suit)

/-- A logged bid value: `'pass'` or a number. -/
inductive BidValue where
  | pass
  | num (n : Int)
deriving DecidableEq

/-- The JS test `bidValue !== 'pass' && typeof bidValue === 'number'`. -/
def BidValue.isNum : BidValue → Bool
  | .num _ => true
  | .pass => false

/-- The `bidEntries.forEach` loop of `canPlayerBid` (part_000 lines
166–171): index of the last entry equal to `(bidWinner, highestBid)`,
starting from `-1`. -/
def lastWinnerBidIdx (bw : String) (hb : Int) :
    List (String × BidValue) → Nat → Int → Int
  | [], _, acc => acc
  | (k, v) :: rest, i, acc =>
      lastWinnerBidIdx bw hb rest (i + 1)
        (if k = bw ∧ v = BidValue.num hb then (i : Int) else acc)

/-- The `for` loop of `canPlayerBid` (part_000 lines 174–185): is there an
entry at index strictly above `start` whose bidder is on the other team and
whose value is numeric? -/
def opponentBidAfterLoop (players : String → Nat) (bidWinnerTeam : Nat)
    (start : Int) : List (String × BidValue) → Nat → Bool
  | [], _ => false
  | (k, v) :: rest, i =>
      if start < (i : Int) ∧ players k % 2 ≠ bidWinnerTeam ∧ v.isNum then true
      else opponentBidAfterLoop players bidWinnerTeam start rest (i + 1)

/-- The fields of `gameData` consulted by `canPlayerBid` (part_000 lines
146–193).  The full engine state below extends this. -/
structure BidData where
  bidWinner : Option String
  highestBid : Int
  bids : List (String × BidValue)

/-- `canPlayerBid` (part_000 lines 146–193).  `players` maps a player id to
its seat position; team = position mod 2. -/
def canPlayerBid (playerId : String) (players : String → Nat)
    (gameData : BidData) : Bool :=
  match gameData.bidWinner with
  | none => true
  | some bw =>
      let currentPlayerTeam := players playerId % 2
      let bidWinnerTeam := players bw % 2
      if currentPlayerTeam = bidWinnerTeam then
        let bidWinnerBidIndex :=
          lastWinnerBidIdx bw gameData.highestBid gameData.bids 0 (-1)
        opponentBidAfterLoop players bidWinnerTeam bidWinnerBidIndex
          gameData.bids 0
      else true

/-- The round state of `Game.js` restricted to the fields the embedded
transitions read or write. -/
structure GameState where
  players : String → Nat
  hands : String → List Card
  currentTrick : List Play
  trumpCard : Option Card
  trumpRevealed : Bool
  trumpAskedBy : Option String
  trumpPlayedAfterAsk : Bool
  bidWinner : Option String
  highestBid : Int
  bids : List (String × BidValue)
  currentPlayer : Nat
  tricks : List (List Play)
  team1Tricks : List (List Play)
  team2Tricks : List (List Play)
  team1Score : Int
  team2Score : Int
  phase : String
  bidMade : Bool
  trickCompletedAt : Option Int
  nextPlayer : Option Nat

/-- `askForTrump` (Game.js lines 275–293): a guarded state update; a
rejected ask performs no write, leaving the state unchanged. -/
def askForTrump (s : GameState) (playerId : String) : GameState :=
  if canAskForTrump (s.hands playerId) s.currentTrick s.trumpCard
      s.trumpRevealed then
    { s with trumpAskedBy := some playerId, trumpRevealed := true }
  else s

/-- Placeholder play used for the (in-bounds) JS index accesses
`newTrick[0]` and `newTrick[winnerIndex]`. -/
def defaultPlay : Play := { playerId := "", card := { suit := .hearts, rank := .r7 }, position := 0 }

/-- `playCard` (Game.js lines 295–412) as a transition on `GameState`:
`.error` is an early `setError` return (the source writes nothing in that
case, so the state is unchanged), `.ok` is the state written by the final
`update` call.  `now` is the value `Date.now()` returns during the call;
`sortCards` is the hand-sorting function `Game.js` imports (absent from the
sources, hence a parameter).  The 10-second deferred trick clear the source
schedules with `setTimeout` is a separate later write and is not part of
this transition's result. -/
def playCard (sortCards : List Card → List Card) (now : Int)
    (s : GameState) (playerId : String) (card : Card) :
    Except String GameState :=
  let currentPlayerPosition := s.players playerId
  if currentPlayerPosition ≠ s.currentPlayer then .error "Not your turn"
  else
    let displayLocked : Bool :=
      match s.trickCompletedAt with
      | some t => decide (t ≠ 0 ∧ now - t < 5000)
      | none => false
    if displayLocked then .error "Please wait while the trick is being displayed"
    else
      let playerHand := s.hands playerId
      let currentTrick := s.currentTrick
      let isBidWinner : Bool := s.bidWinner = some playerId
      let mustTrumpViolation : Bool :=
        decide (s.trumpAskedBy = some playerId) && !s.trumpPlayedAfterAsk &&
        playerHasTrumpSuit playerHand s.trumpCard &&
        (match s.trumpCard with
         | some tc => decide (card.suit ≠ tc.suit)
         | none => false)
      if mustTrumpViolation then
        .error "You must play a trump suit card since you asked for trump"
      else if !(Part000.canPlayCard card playerHand currentTrick s.trumpCard
          s.trumpRevealed isBidWinner) then
        .error "Card rejected by follow-suit or trump rules"
      else
        let newHand := playerHand.filter fun c => decide (c ≠ card)
        let sortedHand := sortCards newHand
        let newTrick := currentTrick ++
          [{ playerId := playerId, card := card, position := currentPlayerPosition }]
        let s1 := { s with
          hands := fun pid => if pid = playerId then sortedHand else s.hands pid,
          currentTrick := newTrick }
        let s2 :=
          if decide (s.trumpAskedBy = some playerId) &&
              (match s.trumpCard with
               | some tc => decide (card.suit = tc.suit)
               | none => false) then
            { s1 with trumpPlayedAfterAsk := true }
          else s1
        if newTrick.length = 4 then
          let leadSuit := (newTrick.getD 0 defaultPlay).card.suit
          let winnerIndex := getTrickWinner (newTrick.map Play.toRaw) leadSuit s.trumpCard
          let winnerId := (newTrick.getD winnerIndex defaultPlay).playerId
          let winnerPosition := s.players winnerId
          let trickPoints := (newTrick.map fun play => getCardPoints play.card).sum
          let winnerTeam1 : Bool := winnerPosition % 2 = 0
          let allTricks := s.tricks ++ [newTrick]
          let s3 := { s2 with
            tricks := allTricks,
            team1Tricks := if winnerTeam1 then s.team1Tricks ++ [newTrick] else s.team1Tricks,
            team2Tricks := if winnerTeam1 then s.team2Tricks else s.team2Tricks ++ [newTrick],
            trumpAskedBy := none,
            trumpPlayedAfterAsk := false,
            trickCompletedAt := some now,
            nextPlayer := some winnerPosition }
          if allTricks.length = 8 then
            let team1Points := getTotalPoints s.team1Tricks
            let team2Points := getTotalPoints s.team2Tricks
            let finalTeam1Points := if winnerTeam1 then team1Points + trickPoints else team1Points
            let finalTeam2Points := if winnerTeam1 then team2Points else team2Points + trickPoints
            let bidWinnerPosition := s.players (s.bidWinner.getD "")
            let biddingTeam1 : Bool := bidWinnerPosition % 2 = 0
            let biddingTeamPoints := if biddingTeam1 then finalTeam1Points else finalTeam2Points
            .ok { s3 with
              phase := "gameOver",
              team1Score := finalTeam1Points,
              team2Score := finalTeam2Points,
              bidMade := decide (s.highestBid ≤ biddingTeamPoints),
              trickCompletedAt := none }
          else
            .ok s3
        else
          .ok { s2 with currentPlayer := (s.currentPlayer + 1) % 4 }

/-- Whether a `playCard` transition was accepted. -/
def resultAccepted : Except String GameState → Bool
  | .ok _ => true
  | .error _ => false

/-- The ranking of a play as the spec words it for a fixed trump suit:
"1000 + trickValue(rank) if its suit is the trump suit, else
100 + trickValue(rank) if its suit is the lead suit, else 0". -/
def specRankValue (leadSuit trumpSuit : Suit) (c : Card) : Int :=
  if c.suit = trumpSuit then 1000 + CARD_VALUES c.rank
  else if c.suit = leadSuit then 100 + CARD_VALUES c.rank
  else 0

/-- First play of the spec example trick: hearts-K. -/
def exP0 : Play := { playerId := "p0", card := { suit := .hearts, rank := .K }, position := 0 }

/-- Second play of the spec example trick: spades-J (the trump suit). -/
def exP1 : Play := { playerId := "p1", card := { suit := .spades, rank := .J }, position := 1 }

/-- Third play of the spec example trick: hearts-A. -/
def exP2 : Play := { playerId := "p2", card := { suit := .hearts, rank := .A }, position := 2 }

/-- Fourth play of the spec example trick: clubs-7. -/
def exP3 : Play := { playerId := "p3", card := { suit := .clubs, rank := .r7 }, position := 3 }

/-- The trump card of the spec example: spades-J. -/
def exTrump : Card := { suit := .spades, rank := .J }

/-- The spec example trick: hearts-K, spades-J, hearts-A, clubs-7. -/
def exampleTrick : List Play := [exP0, exP1, exP2, exP3]

/-- Seat assignment used by the concrete example states: p0..p3 at
positions 0..3. -/
def exPlayers : String → Nat := fun pid =>
  if pid = "p0" then 0
  else if pid = "p1" then 1
  else if pid = "p2" then 2
  else 3

/-- A completed all-hearts trick (won by p3's J of hearts). -/
def exHeartsTrick : List Play :=
  [{ playerId := "p0", card := { suit := .hearts, rank := .r8 }, position := 0 },
   { playerId := "p1", card := { suit := .hearts, rank := .r9 }, position := 1 },
   { playerId := "p2", card := { suit := .hearts, rank := .r10 }, position := 2 },
   { playerId := "p3", card := { suit := .hearts, rank := .J }, position := 3 }]

/-- A concrete mid-round state in the post-trick display window: the first
trick just completed at timestamp 1000 (`trickCompletedAt = some 1000`) and
is still on the table; `currentPlayer` still points at p3, who played
last. -/
def displayWindowState : GameState where
  players := exPlayers
  hands := fun pid => if pid = "p3" then [{ suit := .hearts, rank := .Q }] else []
  currentTrick := exHeartsTrick
  trumpCard := some { suit := .spades, rank := .A }
  trumpRevealed := false
  trumpAskedBy := none
  trumpPlayedAfterAsk := false
  bidWinner := some "p1"
  highestBid := 16
  bids := [("p1", .num 16)]
  currentPlayer := 3
  tricks := [exHeartsTrick]
  team1Tricks := []
  team2Tricks := [exHeartsTrick]
  team1Score := 0
  team2Score := 0
  phase := "playing"
  bidMade := false
  trickCompletedAt := some 1000
  nextPlayer := some 3

/-- A concrete state in which p2 has asked for trump (clubs led, p2 holds
spades-K and clubs-7, trump is spades-A) and is next to play. -/
def askObligationState : GameState where
  players := exPlayers
  hands := fun pid =>
    if pid = "p2" then
      [{ suit := .spades, rank := .K }, { suit := .clubs, rank := .r7 }]
    else []
  currentTrick :=
    [{ playerId := "p0", card := { suit := .diamonds, rank := .r9 }, position := 0 },
     { playerId := "p1", card := { suit := .diamonds, rank := .r10 }, position := 1 }]
  trumpCard := some { suit := .spades, rank := .A }
  trumpRevealed := true
  trumpAskedBy := some "p2"
  trumpPlayedAfterAsk := false
  bidWinner := some "p0"
  highestBid := 17
  bids := [("p0", .num 17)]
  currentPlayer := 2
  tricks := []
  team1Tricks := []
  team2Tricks := []
  team1Score := 0
  team2Score := 0
  phase := "playing"
  bidMade := false
  trickCompletedAt := none
  nextPlayer := none

/-- A concrete state in which p1 lacks the led suit (hearts) while trump is
still hidden, so p1 may ask for trump. -/
def askableState : GameState where
  players := exPlayers
  hands := fun pid => if pid = "p1" then [{ suit := .clubs, rank := .r7 }] else []
  currentTrick :=
    [{ playerId := "p0", card := { suit := .hearts, rank := .K }, position := 0 }]
  trumpCard := some { suit := .spades, rank := .A }
  trumpRevealed := false
  trumpAskedBy := none
  trumpPlayedAfterAsk := false
  bidWinner := some "p0"
  highestBid := 15
  bids := [("p0", .num 15)]
  currentPlayer := 1
  tricks := []
  team1Tricks := []
  team2Tricks := []
  team1Score := 0
  team2Score := 0
  phase := "playing"
  bidMade := false
  trickCompletedAt := none
  nextPlayer := none

/-! ## Helper lemmas -/

theorem CARD_VALUES_nonneg (r : Rank) : 0 ≤ CARD_VALUES r := by
  cases r <;> decide

theorem rankedValue_nonneg (ls : Suit) (ts : Option Suit) (c : Card) :
    0 ≤ rankedValue ls ts c := by
  have := CARD_VALUES_nonneg c.rank
  unfold rankedValue
  split_ifs <;> omega

/-! ## Claim theorems -/

/-- C8: `createDeck` returns exactly 32 cards, pairwise distinct by
(suit, rank), covering every combination of the 4 suits and 8 ranks, and
the total of `getCardPoints` over the deck is 28. -/
theorem createDeck_spec :
    createDeck.length = 32 ∧ createDeck.Nodup ∧
    (∀ (s : Suit) (r : Rank), ({ suit := s, rank := r } : Card) ∈ createDeck) ∧
    (createDeck.map getCardPoints).sum = 28 := by
  refine ⟨by decide, by decide, ?_, by decide⟩
  intro s r
  cases s <;> cases r <;> decide

/-- C4: `calculateBidValidity bid h` succeeds iff 14 ≤ bid ≤ 28 and the
highest bid is unset or strictly below bid; in particular
`isValidBid(20, 19)` is true, `isValidBid(13, null)` is false, and
`isValidBid(20, 20)` is false. -/
theorem calculateBidValidity_spec :
    (∀ (bid : Int) (h : Option Int),
      calculateBidValidity bid h = true ↔
        (14 ≤ bid ∧ bid ≤ 28 ∧ (h = none ∨ ∃ x, h = some x ∧ x < bid))) ∧
    calculateBidValidity 20 (some 19) = true ∧
    calculateBidValidity 13 none = false ∧
    calculateBidValidity 20 (some 20) = false := by
  refine ⟨?_, by decide, by decide, by decide⟩
  intro bid h
  rcases h with _ | x
  · simp only [calculateBidValidity]
    split_ifs with h1
    · simp only [Bool.false_eq_true, false_iff]
      rintro ⟨ha, hb, -⟩
      omega
    · exact ⟨fun _ => ⟨by omega, by omega, Or.inl (by simp)⟩, fun _ => rfl⟩
  · simp only [calculateBidValidity]
    split_ifs with h1 h2
    · simp only [Bool.false_eq_true, false_iff]
      rintro ⟨ha, hb, -⟩
      omega
    · simp only [Bool.false_eq_true, false_iff]
      rintro ⟨ha, hb, hx | ⟨y, hy, hlt⟩⟩
      · simp at hx
      · simp only [Option.some.injEq] at hy
        subst hy
        omega
    · refine ⟨fun _ => ⟨by omega, by omega, Or.inr ⟨x, by simp, ?_⟩⟩, fun _ => rfl⟩
      rw [not_and_or] at h2
      rcases h2 with h2 | h2
      · push_neg at h2
        omega
      · omega

/-- C3: with a non-empty trick led by the first play's suit, a player whose
hand contains a lead-suit card cannot play an off-suit card — both
`canPlayCard` variants return `false`; since the hand holds the lead suit,
the bid winner's designated-trump-card exception cannot apply. -/
theorem canPlayCard_followSuit :
    ∀ (card : Card) (hand : List Card) (p : Play) (rest : List Play)
      (trumpCard : Option Card) (trumpRevealed isBidWinner : Bool),
      (hand.any fun c => decide (c.suit = p.card.suit)) = true →
      card.suit ≠ p.card.suit →
      GameLogic.canPlayCard card hand (p :: rest) trumpCard trumpRevealed
        isBidWinner = false ∧
      Part000.canPlayCard card hand (p :: rest) trumpCard trumpRevealed
        isBidWinner = false := by
  intro card hand p rest tc rev bw hhas hne
  constructor
  · simp [GameLogic.canPlayCard, hhas, hne]
  · simp [Part000.canPlayCard, hhas, hne]

/-- C3 witness: holding the led suit (hearts), an off-suit 7 of spades is
rejected by both variants. -/
theorem canPlayCard_followSuit_witness :
    GameLogic.canPlayCard { suit := .spades, rank := .r7 }
      [{ suit := .hearts, rank := .r8 }]
      [{ playerId := "p0", card := { suit := .hearts, rank := .K }, position := 0 }]
      none false false = false ∧
    Part000.canPlayCard { suit := .spades, rank := .r7 }
      [{ suit := .hearts, rank := .r8 }]
      [{ playerId := "p0", card := { suit := .hearts, rank := .K }, position := 0 }]
      none false false = false :=
  canPlayCard_followSuit _ _ _ _ _ _ _ (by decide) (by decide)

/-- C2 counterexample: bid winner, trump hidden, hand `[spades-J, spades-K]`
consisting entirely of trump-suit cards, leading the designated trump card
spades-J.  The claim says this lead is permitted (the whole hand is of the
trump suit), but both `canPlayCard` variants reject it because the
designated trump card may only be led as the sole card of its suit. -/
theorem canPlayCard_lead_cex :
    (([{ suit := .spades, rank := .J }, { suit := .spades, rank := .K }] :
        List Card).all fun c => decide (c.suit = Suit.spades)) = true ∧
    Part000.canPlayCard { suit := .spades, rank := .J }
      [{ suit := .spades, rank := .J }, { suit := .spades, rank := .K }] []
      (some { suit := .spades, rank := .J }) false true = false ∧
    GameLogic.canPlayCard { suit := .spades, rank := .J }
      [{ suit := .spades, rank := .J }, { suit := .spades, rank := .K }] []
      (some { suit := .spades, rank := .J }) false true = false := by
  decide

/-- C2 amended: while trump is hidden the bid winner, leading a trick, may
play a trump-suit card other than the designated trump card iff the whole
hand is trump-suit (part_000 variant; the gameLogic.js variant leaves such
leads unrestricted), and may lead the designated trump card itself iff it is
the only trump-suit card in hand (plus, in part_000, the hand is all
trump-suit); a non-bid-winner, or the bid winner once trump is revealed, may
lead any held card in both variants. -/
theorem canPlayCard_lead_amended :
    ∀ (card : Card) (hand : List Card) (tc : Card),
      (Part000.canPlayCard card hand [] (some tc) false true = true ↔
        (card.suit ≠ tc.suit ∨
          ((∀ c ∈ hand, c.suit = tc.suit) ∧
            (card ≠ tc ∨
              (hand.filter fun c => decide (c.suit = tc.suit)).length = 1)))) ∧
      (GameLogic.canPlayCard card hand [] (some tc) false true = true ↔
        (card ≠ tc ∨
          (hand.filter fun c => decide (c.suit = tc.suit)).length = 1)) ∧
      (∀ rev : Bool,
        Part000.canPlayCard card hand [] (some tc) rev false = true ∧
        GameLogic.canPlayCard card hand [] (some tc) rev false = true) ∧
      (Part000.canPlayCard card hand [] (some tc) true true = true ∧
       GameLogic.canPlayCard card hand [] (some tc) true true = true) := by
  intro card hand tc
  have hG : GameLogic.canPlayCard card hand [] (some tc) false true =
      (!decide (card = tc) ||
        decide ((hand.filter fun c => decide (c.suit = tc.suit)).length = 1)) := by
    simp only [GameLogic.canPlayCard]
    cases h2 : decide (card = tc) <;> simp [h2]
  have hP : Part000.canPlayCard card hand [] (some tc) false true =
      (!decide (card.suit = tc.suit) ||
        (!(hand.any fun c => decide (c.suit ≠ tc.suit)) &&
          (!decide (card = tc) ||
            decide ((hand.filter fun c => decide (c.suit = tc.suit)).length = 1)))) := by
    simp only [Part000.canPlayCard]
    by_cases h1 : card.suit = tc.suit
    · by_cases h2 : card = tc <;>
        cases h3 : hand.any (fun c => decide (c.suit ≠ tc.suit)) <;>
          simp [h1, h2, h3]
    · have h2 : card ≠ tc := fun he => h1 (by rw [he])
      cases h3 : hand.any (fun c => decide (c.suit ≠ tc.suit)) <;>
        simp [h1, h2, h3]
  refine ⟨?_, ?_, ?_, ?_⟩
  · rw [hP]
    simp only [Bool.or_eq_true, Bool.and_eq_true, Bool.not_eq_true',
      decide_eq_false_iff_not, List.any_eq_false, decide_eq_true_eq, ne_eq,
      not_not]
  · rw [hG]
    simp only [Bool.or_eq_true, Bool.not_eq_true', decide_eq_false_iff_not,
      decide_eq_true_eq, ne_eq]
  · intro rev
    constructor
    · simp [Part000.canPlayCard]
    · simp [GameLogic.canPlayCard]
  · constructor
    · simp [Part000.canPlayCard]
    · simp [GameLogic.canPlayCard]

/-- C2 witness for the amended statement: with an all-trump hand, the bid
winner may lead the non-designated spades-K while trump is hidden
(part_000 variant). -/
theorem canPlayCard_lead_amended_witness :
    Part000.canPlayCard { suit := .spades, rank := .K }
      [{ suit := .spades, rank := .J }, { suit := .spades, rank := .K }] []
      (some { suit := .spades, rank := .J }) false true = true :=
  (canPlayCard_lead_amended { suit := .spades, rank := .K }
    [{ suit := .spades, rank := .J }, { suit := .spades, rank := .K }]
    { suit := .spades, rank := .J }).1.mpr
    (Or.inr ⟨by decide, Or.inl (by decide)⟩)

theorem getTrickWinnerAux_bounds (ls : Suit) (ts : Option Suit) :
    ∀ (l : List (Option RawPlay)) (idx wIdx : Nat) (hv : Int),
      getTrickWinnerAux ls ts l idx wIdx hv = wIdx ∨
      (idx ≤ getTrickWinnerAux ls ts l idx wIdx hv ∧
        getTrickWinnerAux ls ts l idx wIdx hv < idx + l.length) := by
  intro l
  induction l with
  | nil => intro idx wIdx hv; exact Or.inl rfl
  | cons e rest ih =>
      intro idx wIdx hv
      match e with
      | none =>
          rcases ih (idx + 1) wIdx hv with h | h
          · exact Or.inl (by simpa [getTrickWinnerAux] using h)
          · refine Or.inr ?_
            simp only [getTrickWinnerAux, List.length_cons]
            omega
      | some p =>
          match hc : p.card with
          | none =>
              rcases ih (idx + 1) wIdx hv with h | h
              · exact Or.inl (by simpa [getTrickWinnerAux, hc] using h)
              · refine Or.inr ?_
                simp only [getTrickWinnerAux, hc, List.length_cons]
                omega
          | some c =>
              by_cases hlt : hv < rankedValue ls ts c
              · rcases ih (idx + 1) idx (rankedValue ls ts c) with h | h
                · refine Or.inr ?_
                  simp only [getTrickWinnerAux, hc, if_pos hlt, List.length_cons]
                  rw [h]
                  omega
                · refine Or.inr ?_
                  simp only [getTrickWinnerAux, hc, if_pos hlt, List.length_cons]
                  omega
              · rcases ih (idx + 1) wIdx hv with h | h
                · exact Or.inl (by simpa [getTrickWinnerAux, hc, if_neg hlt] using h)
                · refine Or.inr ?_
                  simp only [getTrickWinnerAux, hc, if_neg hlt, List.length_cons]
                  omega

theorem getTrickWinner_four (p0 p1 p2 p3 : Play) (ls : Suit) (tc : Option Card) :
    getTrickWinner ([p0, p1, p2, p3].map Play.toRaw) ls tc < 4 ∧
    (∀ j, j < 4 →
      rankedValue ls (trumpSuitOf tc) (([p0, p1, p2, p3].getD j p0).card) ≤
        rankedValue ls (trumpSuitOf tc)
          (([p0, p1, p2, p3].getD
              (getTrickWinner ([p0, p1, p2, p3].map Play.toRaw) ls tc) p0).card)) ∧
    (∀ j, j < getTrickWinner ([p0, p1, p2, p3].map Play.toRaw) ls tc →
      rankedValue ls (trumpSuitOf tc) (([p0, p1, p2, p3].getD j p0).card) <
        rankedValue ls (trumpSuitOf tc)
          (([p0, p1, p2, p3].getD
              (getTrickWinner ([p0, p1, p2, p3].map Play.toRaw) ls tc) p0).card)) := by
  have h0 : 0 ≤ rankedValue ls (trumpSuitOf tc) p0.card :=
    rankedValue_nonneg ls (trumpSuitOf tc) p0.card
  have hw : getTrickWinner ([p0, p1, p2, p3].map Play.toRaw) ls tc =
      (if rankedValue ls (trumpSuitOf tc) p0.card <
          rankedValue ls (trumpSuitOf tc) p1.card then
        if rankedValue ls (trumpSuitOf tc) p1.card <
            rankedValue ls (trumpSuitOf tc) p2.card then
          if rankedValue ls (trumpSuitOf tc) p2.card <
              rankedValue ls (trumpSuitOf tc) p3.card then 3 else 2
        else
          if rankedValue ls (trumpSuitOf tc) p1.card <
              rankedValue ls (trumpSuitOf tc) p3.card then 3 else 1
      else
        if rankedValue ls (trumpSuitOf tc) p0.card <
            rankedValue ls (trumpSuitOf tc) p2.card then
          if rankedValue ls (trumpSuitOf tc) p2.card <
              rankedValue ls (trumpSuitOf tc) p3.card then 3 else 2
        else
          if rankedValue ls (trumpSuitOf tc) p0.card <
              rankedValue ls (trumpSuitOf tc) p3.card then 3 else 0) := by
    simp only [getTrickWinner, List.map, Play.toRaw, getTrickWinnerAux]
    rw [if_pos (by omega : (-1 : Int) < rankedValue ls (trumpSuitOf tc) p0.card)]
  have e0 : ([p0, p1, p2, p3].getD 0 p0) = p0 := rfl
  have e1 : ([p0, p1, p2, p3].getD 1 p0) = p1 := rfl
  have e2 : ([p0, p1, p2, p3].getD 2 p0) = p2 := rfl
  have e3 : ([p0, p1, p2, p3].getD 3 p0) = p3 := rfl
  rw [hw]
  split_ifs with h1 h2 h3 h4 h5 h6 h7 <;>
    refine ⟨by omega, ?_, ?_⟩ <;> intro j hj <;> interval_cases j <;>
      simp only [e0, e1, e2, e3] <;> omega

theorem rankedValue_spec (lead : Suit) (tcard : Card) (c : Card) :
    rankedValue lead (trumpSuitOf (some tcard)) c = specRankValue lead tcard.suit c := by
  by_cases hcs : c.suit = tcard.suit
  · simp [rankedValue, specRankValue, trumpSuitOf, hcs]
  · have hcs2 : ¬(tcard.suit = c.suit) := fun h => hcs h.symm
    simp [rankedValue, specRankValue, trumpSuitOf, hcs, hcs2]

theorem rankedValue_lead_ge (ls : Suit) (ts : Option Suit) (c : Card)
    (h : c.suit = ls) : 100 ≤ rankedValue ls ts c := by
  have hcv := CARD_VALUES_nonneg c.rank
  by_cases h1 : ts = some c.suit
  · simp only [rankedValue, if_pos h1]
    omega
  · simp only [rankedValue, if_neg h1, if_pos h]
    omega

theorem rankedValue_ge_class (ls : Suit) (ts : Option Suit) (c : Card)
    (h : 100 ≤ rankedValue ls ts c) : c.suit = ls ∨ ts = some c.suit := by
  by_cases h1 : ts = some c.suit
  · exact Or.inr h1
  · by_cases h2 : c.suit = ls
    · exact Or.inl h2
    · exfalso
      simp only [rankedValue, if_neg h1, if_neg h2] at h
      omega

/-- C1: for a completed 4-play trick led by the first play's suit with a
trump suit fixed by the trump card, `getTrickWinner` ranks each play as the
spec states (1000 + value for trump suit, 100 + value for lead suit, 0
otherwise) and returns the least index attaining the maximal ranked value —
the play with the strictly highest value, ties kept at the earliest play;
in particular for lead hearts and trick
[hearts-K, spades-J(trump), hearts-A, clubs-7] the winner is index 1. -/
theorem getTrickWinner_ranking :
    (∀ (lead : Suit) (tcard : Card) (c : Card),
      rankedValue lead (trumpSuitOf (some tcard)) c = specRankValue lead tcard.suit c) ∧
    (∀ (p0 p1 p2 p3 : Play) (tcard : Card),
      getTrickWinner ([p0, p1, p2, p3].map Play.toRaw) p0.card.suit (some tcard) < 4 ∧
      (∀ j, j < 4 →
        specRankValue p0.card.suit tcard.suit (([p0, p1, p2, p3].getD j p0).card) ≤
          specRankValue p0.card.suit tcard.suit
            (([p0, p1, p2, p3].getD
                (getTrickWinner ([p0, p1, p2, p3].map Play.toRaw)
                  p0.card.suit (some tcard)) p0).card)) ∧
      (∀ j, j < getTrickWinner ([p0, p1, p2, p3].map Play.toRaw)
          p0.card.suit (some tcard) →
        specRankValue p0.card.suit tcard.suit (([p0, p1, p2, p3].getD j p0).card) <
          specRankValue p0.card.suit tcard.suit
            (([p0, p1, p2, p3].getD
                (getTrickWinner ([p0, p1, p2, p3].map Play.toRaw)
                  p0.card.suit (some tcard)) p0).card))) ∧
    getTrickWinner (exampleTrick.map Play.toRaw) Suit.hearts (some exTrump) = 1 := by
  refine ⟨rankedValue_spec, ?_, by decide⟩
  intro p0 p1 p2 p3 tcard
  have key := getTrickWinner_four p0 p1 p2 p3 p0.card.suit (some tcard)
  simpa only [rankedValue_spec] using key

/-- C1 witness: the least-argmax property applied to the spec example at
position 0 (hearts-K is ranked no higher than the winning spades-J). -/
theorem getTrickWinner_ranking_witness :
    specRankValue exP0.card.suit exTrump.suit
        (([exP0, exP1, exP2, exP3].getD 0 exP0).card) ≤
      specRankValue exP0.card.suit exTrump.suit
        (([exP0, exP1, exP2, exP3].getD
            (getTrickWinner ([exP0, exP1, exP2, exP3].map Play.toRaw)
              exP0.card.suit (some exTrump)) exP0).card) :=
  (getTrickWinner_ranking.2.1 exP0 exP1 exP2 exP3 exTrump).2.1 0 (by decide)

/-- C10: `getTrickWinner` is total and in-bounds: it returns 0 on the empty
trick and an index below the trick's length on any non-empty trick
(including partial tricks and entries missing a play or a card); and on a
complete 4-play trick led by the first play's suit, the winning play's card
is always of the trump suit or of the lead suit — an off-suit non-trump
play never wins. -/
theorem getTrickWinner_safety :
    (∀ (ls : Suit) (tc : Option Card), getTrickWinner [] ls tc = 0) ∧
    (∀ (trick : List (Option RawPlay)) (ls : Suit) (tc : Option Card),
      trick ≠ [] → getTrickWinner trick ls tc < trick.length) ∧
    (∀ (p0 p1 p2 p3 : Play) (tc : Option Card),
      (([p0, p1, p2, p3].getD
          (getTrickWinner ([p0, p1, p2, p3].map Play.toRaw) p0.card.suit tc)
          p0).card.suit = p0.card.suit ∨
        trumpSuitOf tc = some (([p0, p1, p2, p3].getD
          (getTrickWinner ([p0, p1, p2, p3].map Play.toRaw) p0.card.suit tc)
          p0).card.suit))) := by
  refine ⟨fun ls tc => rfl, ?_, ?_⟩
  · intro trick ls tc hne
    have hlen : 0 < trick.length := List.length_pos.mpr hne
    rcases getTrickWinnerAux_bounds ls (trumpSuitOf tc) trick 0 0 (-1) with h | h
    · unfold getTrickWinner
      omega
    · unfold getTrickWinner
      omega
  · intro p0 p1 p2 p3 tc
    obtain ⟨hw4, hle, -⟩ := getTrickWinner_four p0 p1 p2 p3 p0.card.suit tc
    have h0 := hle 0 (by omega)
    have e0 : ([p0, p1, p2, p3].getD 0 p0) = p0 := rfl
    rw [e0] at h0
    have hlead : 100 ≤ rankedValue p0.card.suit (trumpSuitOf tc) p0.card :=
      rankedValue_lead_ge _ _ _ rfl
    exact rankedValue_ge_class _ _ _ (le_trans hlead h0)

/-- C10 witness: on the one-entry trick whose entry is an absent play, the
returned index is within bounds. -/
theorem getTrickWinner_safety_witness :
    getTrickWinner [(none : Option RawPlay)] Suit.hearts none < 1 :=
  getTrickWinner_safety.2.1 [none] Suit.hearts none (by decide)

/-- C6: `canAskForTrump` permits the ask exactly when trump is not yet
revealed, a trump card exists, the current trick is non-empty (the asker is
not leading), and the asker's hand has no card of the lead suit; a
permitted `AskTrump` sets `trumpRevealed` and records `trumpAskedBy`, and a
rejected ask leaves the state unchanged. -/
theorem canAskForTrump_spec :
    ∀ (s : GameState) (pid : String),
      (canAskForTrump (s.hands pid) s.currentTrick s.trumpCard s.trumpRevealed
          = true ↔
        (s.trumpRevealed = false ∧ s.trumpCard.isSome = true ∧
          ∃ p rest, s.currentTrick = p :: rest ∧
            ∀ c ∈ s.hands pid, c.suit ≠ p.card.suit)) ∧
      (canAskForTrump (s.hands pid) s.currentTrick s.trumpCard s.trumpRevealed
          = true →
        askForTrump s pid =
          { s with trumpRevealed := true, trumpAskedBy := some pid }) ∧
      (canAskForTrump (s.hands pid) s.currentTrick s.trumpCard s.trumpRevealed
          = false → askForTrump s pid = s) := by
  intro s pid
  refine ⟨?_, ?_, ?_⟩
  · simp only [canAskForTrump]
    rcases hr : s.trumpRevealed with _ | _
    · rcases htc : s.trumpCard with _ | tc
      · simp
      · rcases htr : s.currentTrick with _ | ⟨p, rest⟩
        · simp
        · simp only [Option.isNone_some, Bool.or_false, Bool.false_eq_true,
            if_false, Bool.not_eq_true', List.any_eq_false,
            decide_eq_true_eq, Option.isSome_some, ne_eq]
          constructor
          · intro hall
            exact ⟨by trivial, by trivial, p, rest, rfl, hall⟩
          · rintro ⟨-, -, q, qrest, hq, hall⟩
            rw [List.cons.injEq] at hq
            rcases hq with ⟨hq1, -⟩
            subst hq1
            exact hall
    · simp
  · intro h
    simp only [askForTrump, h, if_true]
  · intro h
    simp only [askForTrump, h, Bool.false_eq_true, if_false]

/-- C6 witness: in `askableState`, p1 lacks the led hearts, so the ask is
accepted and reveals trump. -/
theorem canAskForTrump_spec_witness :
    askForTrump askableState "p1" =
      { askableState with trumpRevealed := true, trumpAskedBy := some "p1" } :=
  (canAskForTrump_spec askableState "p1").2.1 (by decide)

/-- C7: after a player asks for trump (`trumpAskedBy` set,
`trumpPlayedAfterAsk` still false), a `PlayCard` by them with a
non-trump-suit card is rejected while their hand holds any trump-suit card
(a rejection returns early and writes nothing, leaving the state
unchanged); the obligation is recorded as satisfied once they play a
trump-suit card, and both `trumpAskedBy` and `trumpPlayedAfterAsk` are
reset when the trick completes. -/
theorem playCard_trumpAskObligation :
    ∀ (sortCards : List Card → List Card) (now : Int) (s : GameState)
      (pid : String) (card : Card) (tc : Card),
      s.trumpAskedBy = some pid → s.trumpPlayedAfterAsk = false →
      s.trumpCard = some tc →
      ((playerHasTrumpSuit (s.hands pid) (some tc) = true →
          card.suit ≠ tc.suit →
          resultAccepted (playCard sortCards now s pid card) = false) ∧
       (∀ s', playCard sortCards now s pid card = .ok s' →
          card.suit = tc.suit → s.currentTrick.length + 1 ≠ 4 →
          s'.trumpPlayedAfterAsk = true) ∧
       (∀ s', playCard sortCards now s pid card = .ok s' →
          s.currentTrick.length + 1 = 4 →
          s'.trumpAskedBy = none ∧ s'.trumpPlayedAfterAsk = false)) := by
  intro f now s pid card tc hAsk hNotPlayed hTC
  refine ⟨?_, ?_, ?_⟩
  · intro hHas hNe
    simp only [playCard, hAsk, hNotPlayed, hTC, hHas]
    simp [hNe]
    split_ifs <;> rfl
  · intro s' hok hSuit hLen
    simp only [playCard, hAsk, hNotPlayed, hTC, hSuit] at hok
    simp only [List.length_append, List.length_cons, List.length_nil,
      zero_add] at hok
    simp [hLen] at hok
    split_ifs at hok
    injection hok with hok
    subst hok
    rfl
  · intro s' hok hLen4
    simp only [playCard, hAsk, hNotPlayed, hTC] at hok
    simp only [List.length_append, List.length_cons, List.length_nil,
      zero_add] at hok
    simp [hLen4] at hok
    split_ifs at hok <;> (injection hok with hok; subst hok; exact ⟨rfl, rfl⟩)

/-- C7 witness: in `askObligationState`, p2 (who asked for trump and holds
spades-K) is rejected when attempting the off-suit clubs-7. -/
theorem playCard_trumpAskObligation_witness :
    resultAccepted
      (playCard (fun h => h) 0 askObligationState "p2"
        { suit := .clubs, rank := .r7 }) = false :=
  (playCard_trumpAskObligation (fun h => h) 0 askObligationState "p2"
      { suit := .clubs, rank := .r7 } { suit := .spades, rank := .A }
      rfl rfl rfl).1 (by decide) (by decide)

/-- C9 counterexample: in `displayWindowState` (a trick completed at
timestamp 1000 and still on display), the very same `PlayCard` action by p3
is rejected when it arrives at time 2000 (within the 5000 ms display
window) and accepted when it arrives at time 10000 — the engine's
validation consults `Date.now()`, so it is not a function of state and
action alone. -/
theorem playCard_time_dependent_cex :
    resultAccepted (playCard (fun h => h) 2000 displayWindowState "p3"
      { suit := .hearts, rank := .Q }) = false ∧
    resultAccepted (playCard (fun h => h) 10000 displayWindowState "p3"
      { suit := .hearts, rank := .Q }) = true := by
  constructor
  · rfl
  · rfl

/-- C9 amended: the engine transition is a deterministic function of
current state, incoming action, and arrival timestamp; arrival time enters
only through the trick-display lock and the recorded completion timestamp:
when no trick-display timestamp is set and the play does not complete a
trick, the accept/reject outcome and the successor state are independent of
the arrival time. -/
theorem playCard_fixed_time_deterministic :
    ∀ (sortCards : List Card → List Card) (s : GameState) (pid : String)
      (card : Card) (now now' : Int),
      s.trickCompletedAt = none → s.currentTrick.length + 1 ≠ 4 →
      playCard sortCards now s pid card = playCard sortCards now' s pid card := by
  intro f s pid card now now' hTCA hLen
  simp only [playCard, hTCA]
  simp only [List.length_append, List.length_cons, List.length_nil, zero_add]
  simp [hLen]

/-- C9 amended witness: in `askableState` (no display lock, first play of a
trick), p1 playing clubs-7 yields the same transition at times 5 and
99999. -/
theorem playCard_fixed_time_deterministic_witness :
    playCard (fun h => h) 5 askableState "p1" { suit := .clubs, rank := .r7 } =
      playCard (fun h => h) 99999 askableState "p1"
        { suit := .clubs, rank := .r7 } :=
  playCard_fixed_time_deterministic (fun h => h) askableState "p1"
    { suit := .clubs, rank := .r7 } 5 99999 rfl (by decide)

theorem lastWinnerBidIdx_no_match (bw : String) (hb : Int) :
    ∀ (l : List (String × BidValue)) (i : Nat) (acc : Int),
      (∀ e ∈ l, e ≠ (bw, BidValue.num hb)) →
      lastWinnerBidIdx bw hb l i acc = acc := by
  intro l
  induction l with
  | nil => intro i acc hno; rfl
  | cons e rest ih =>
      intro i acc hno
      obtain ⟨k, v⟩ := e
      have hne : (k, v) ≠ (bw, BidValue.num hb) := hno _ (List.mem_cons_self _ _)
      have hcond : ¬(k = bw ∧ v = BidValue.num hb) := by
        rintro ⟨rfl, rfl⟩
        exact hne rfl
      simp only [lastWinnerBidIdx, if_neg hcond]
      exact ih _ _ fun e he => hno e (List.mem_cons_of_mem _ he)

theorem lastWinnerBidIdx_append (bw : String) (hb : Int) :
    ∀ (xs ys : List (String × BidValue)) (i : Nat) (acc : Int),
      lastWinnerBidIdx bw hb (xs ++ ys) i acc =
        lastWinnerBidIdx bw hb ys (i + xs.length)
          (lastWinnerBidIdx bw hb xs i acc) := by
  intro xs
  induction xs with
  | nil => intro ys i acc; simp [lastWinnerBidIdx]
  | cons e rest ih =>
      intro ys i acc
      obtain ⟨k, v⟩ := e
      simp only [List.cons_append, lastWinnerBidIdx, List.length_cons,
        List.append_eq]
      rw [ih]
      congr 1
      omega

theorem opponentBidAfterLoop_all_above (players : String → Nat) (t : Nat)
    (start : Int) :
    ∀ (l : List (String × BidValue)) (i : Nat), start < (i : Int) →
      (opponentBidAfterLoop players t start l i = true ↔
        ∃ e ∈ l, players e.1 % 2 ≠ t ∧ e.2.isNum = true) := by
  intro l
  induction l with
  | nil => intro i hi; simp [opponentBidAfterLoop]
  | cons e rest ih =>
      intro i hi
      obtain ⟨k, v⟩ := e
      by_cases hc : players k % 2 ≠ t ∧ v.isNum = true
      · have hcond : start < (i : Int) ∧ players k % 2 ≠ t ∧ v.isNum = true :=
          ⟨hi, hc.1, hc.2⟩
        simp only [opponentBidAfterLoop, if_pos hcond]
        exact ⟨fun _ => ⟨(k, v), List.mem_cons_self _ _, hc⟩, fun _ => by trivial⟩
      · have hnc : ¬(start < (i : Int) ∧ players k % 2 ≠ t ∧ v.isNum = true) :=
          fun h => hc ⟨h.2.1, h.2.2⟩
        simp only [opponentBidAfterLoop, if_neg hnc]
        rw [ih (i + 1) (by push_cast; omega)]
        constructor
        · rintro ⟨e, he, h⟩
          exact ⟨e, List.mem_cons_of_mem _ he, h⟩
        · rintro ⟨e, he, h⟩
          rcases List.mem_cons.mp he with rfl | he2
          · exact absurd ⟨h.1, h.2⟩ hc
          · exact ⟨e, he2, h⟩

theorem opponentBidAfterLoop_all_below (players : String → Nat) (t : Nat)
    (start : Int) :
    ∀ (l : List (String × BidValue)) (i : Nat),
      ((i : Int) + l.length ≤ start + 1) →
      opponentBidAfterLoop players t start l i = false := by
  intro l
  induction l with
  | nil => intro i hle; rfl
  | cons e rest ih =>
      intro i hle
      obtain ⟨k, v⟩ := e
      simp only [List.length_cons] at hle
      have hni : ¬(start < (i : Int) ∧ players k % 2 ≠ t ∧ v.isNum = true) := by
        rintro ⟨h, -⟩
        push_cast at hle
        omega
      simp only [opponentBidAfterLoop, if_neg hni]
      exact ih (i + 1) (by push_cast at hle ⊢; omega)

theorem opponentBidAfterLoop_append (players : String → Nat) (t : Nat)
    (start : Int) :
    ∀ (xs ys : List (String × BidValue)) (i : Nat),
      opponentBidAfterLoop players t start (xs ++ ys) i =
        (opponentBidAfterLoop players t start xs i ||
          opponentBidAfterLoop players t start ys (i + xs.length)) := by
  intro xs
  induction xs with
  | nil => intro ys i; simp [opponentBidAfterLoop]
  | cons e rest ih =>
      intro ys i
      obtain ⟨k, v⟩ := e
      simp only [List.cons_append, opponentBidAfterLoop, List.length_cons,
        List.append_eq]
      split_ifs with hc
      · rfl
      · rw [ih]
        congr 2
        omega

theorem unique_key_split :
    ∀ (xs xs' ys ys' : List (String × BidValue)) (a : String × BidValue),
      xs ++ a :: ys = xs' ++ a :: ys' →
      a.1 ∉ xs.map Prod.fst → a.1 ∉ xs'.map Prod.fst →
      xs = xs' ∧ ys = ys' := by
  intro xs
  induction xs with
  | nil =>
      intro xs' ys ys' a heq h1 h2
      cases xs' with
      | nil =>
          simp only [List.nil_append, List.cons.injEq] at heq
          exact ⟨rfl, heq.2⟩
      | cons b rest2 =>
          simp only [List.nil_append, List.cons_append, List.cons.injEq] at heq
          exfalso
          apply h2
          rw [List.map_cons, heq.1]
          exact List.mem_cons_self _ _
  | cons x rest ih =>
      intro xs' ys ys' a heq h1 h2
      cases xs' with
      | nil =>
          simp only [List.cons_append, List.nil_append, List.cons.injEq] at heq
          exfalso
          apply h1
          rw [List.map_cons, ← heq.1]
          exact List.mem_cons_self _ _
      | cons x2 rest2 =>
          simp only [List.cons_append, List.cons.injEq] at heq
          obtain ⟨hx, htail⟩ := heq
          have h1r : a.1 ∉ rest.map Prod.fst := by
            intro hmem
            exact h1 (by rw [List.map_cons]; exact List.mem_cons_of_mem _ hmem)
          have h2r : a.1 ∉ rest2.map Prod.fst := by
            intro hmem
            exact h2 (by rw [List.map_cons]; exact List.mem_cons_of_mem _ hmem)
          obtain ⟨hr, hy⟩ := ih rest2 ys ys' a htail h1r h2r
          exact ⟨by rw [hx, hr], hy⟩

/-- C5: with no bid winner every player may bid; a player on the opposing
team of the bid winner may always bid; a player on the bid winner's own
team (same seat parity) may bid iff at least one opposing-team numeric
(non-pass) bid occurs after the bid winner's winning bid in the bids log's
submission order.  The last part assumes what the engine guarantees for the
bids object: one entry per player id (keys without duplicates) and the
winning entry `(bidWinner, highestBid)` present in the log. -/
theorem canPlayerBid_spec :
    (∀ (pid : String) (players : String → Nat) (gd : BidData),
      gd.bidWinner = none → canPlayerBid pid players gd = true) ∧
    (∀ (pid : String) (players : String → Nat) (gd : BidData) (bw : String),
      gd.bidWinner = some bw → players pid % 2 ≠ players bw % 2 →
      canPlayerBid pid players gd = true) ∧
    (∀ (pid : String) (players : String → Nat) (gd : BidData) (bw : String),
      gd.bidWinner = some bw → players pid % 2 = players bw % 2 →
      (gd.bids.map Prod.fst).Nodup →
      (bw, BidValue.num gd.highestBid) ∈ gd.bids →
      (canPlayerBid pid players gd = true ↔
        ∃ pre post,
          gd.bids = pre ++ (bw, BidValue.num gd.highestBid) :: post ∧
          ∃ e ∈ post, players e.1 % 2 ≠ players bw % 2 ∧
            e.2.isNum = true)) := by
  refine ⟨?_, ?_, ?_⟩
  · intro pid players gd h
    simp [canPlayerBid, h]
  · intro pid players gd bw hbw hteam
    simp only [canPlayerBid, hbw]
    rw [if_neg hteam]
  · intro pid players gd bw hbw hteam hnd hmem
    obtain ⟨l₁, l₂, hsplit⟩ := List.append_of_mem hmem
    have hkeysOrig :
        ((l₁ ++ (bw, BidValue.num gd.highestBid) :: l₂).map Prod.fst).Nodup := by
      rw [← hsplit]
      exact hnd
    have hkeys :
        ((l₁ ++ (bw, BidValue.num gd.highestBid) :: l₂).map Prod.fst).Nodup :=
      hkeysOrig
    rw [List.map_append, List.map_cons, List.nodup_append] at hkeys
    obtain ⟨hnd1, hnd2cons, hdisj⟩ := hkeys
    rw [List.nodup_cons] at hnd2cons
    obtain ⟨hbw2, hnd2⟩ := hnd2cons
    have hbw1 : bw ∉ l₁.map Prod.fst := fun hm =>
      hdisj hm (List.mem_cons_self _ _)
    have hno1 : ∀ e ∈ l₁, e ≠ (bw, BidValue.num gd.highestBid) := by
      intro e he heq
      exact hbw1 (List.mem_map_of_mem Prod.fst (heq ▸ he))
    have hno2 : ∀ e ∈ l₂, e ≠ (bw, BidValue.num gd.highestBid) := by
      intro e he heq
      exact hbw2 (List.mem_map_of_mem Prod.fst (heq ▸ he))
    have hidx : lastWinnerBidIdx bw gd.highestBid gd.bids 0 (-1) =
        (l₁.length : Int) := by
      rw [hsplit, lastWinnerBidIdx_append,
        lastWinnerBidIdx_no_match bw gd.highestBid l₁ 0 (-1) hno1]
      simp only [lastWinnerBidIdx]
      rw [if_pos (by simp),
        lastWinnerBidIdx_no_match bw gd.highestBid l₂ _ _ hno2]
      simp
    simp only [canPlayerBid, hbw]
    rw [if_pos hteam, hidx, hsplit, opponentBidAfterLoop_append,
      opponentBidAfterLoop_all_below players (players bw % 2)
        (l₁.length : Int) l₁ 0 (by push_cast; omega),
      Bool.false_or]
    have hskip : ¬((l₁.length : Int) < ((0 + l₁.length : Nat) : Int) ∧
        players (bw, BidValue.num gd.highestBid).1 % 2 ≠ players bw % 2 ∧
        (bw, BidValue.num gd.highestBid).2.isNum = true) := by
      rintro ⟨hlt, -, -⟩
      push_cast at hlt
      omega
    simp only [opponentBidAfterLoop, if_neg hskip]
    rw [opponentBidAfterLoop_all_above players (players bw % 2)
      (l₁.length : Int) l₂ (0 + l₁.length + 1) (by push_cast; omega)]
    constructor
    · rintro ⟨e, he, hopp⟩
      exact ⟨l₁, l₂, rfl, e, he, hopp⟩
    · rintro ⟨pre, post, hdec, e, he, hopp⟩
      have hkeys2 : ((pre ++ (bw, BidValue.num gd.highestBid) :: post).map
          Prod.fst).Nodup := hdec ▸ hkeysOrig
      rw [List.map_append, List.map_cons, List.nodup_append] at hkeys2
      obtain ⟨-, -, hdisj2⟩ := hkeys2
      have hbwpre : bw ∉ pre.map Prod.fst := fun hm =>
        hdisj2 hm (List.mem_cons_self _ _)
      obtain ⟨hpre, hpost⟩ :=
        unique_key_split l₁ pre l₂ post (bw, BidValue.num gd.highestBid)
          hdec hbw1 hbwpre
      subst hpost
      exact ⟨e, he, hopp⟩

/-- C5 witness: p1 won at 14, then opponent p0 bid 15 after it, so p3
(p1's teammate) is allowed to bid again. -/
theorem canPlayerBid_spec_witness :
    canPlayerBid "p3" exPlayers
      { bidWinner := some "p1", highestBid := 14,
        bids := [("p1", BidValue.num 14), ("p0", BidValue.num 15)] } = true :=
  (canPlayerBid_spec.2.2 "p3" exPlayers
      { bidWinner := some "p1", highestBid := 14,
        bids := [("p1", BidValue.num 14), ("p0", BidValue.num 15)] } "p1"
      rfl (by decide) (by decide) (by decide)).mpr
    ⟨[], [("p0", BidValue.num 15)], rfl, ("p0", BidValue.num 15),
      List.mem_cons_self _ _, by decide, rfl⟩
